import Mathlib

/-!
Shallow embedding of the moxie runtime's Python front end
(`moxie/memory.py`, `moxie/scheduler.py`) together with models of the
parts of the native `_moxie_core` extension that the Python layer calls
into.  Pure Python control flow is translated directly; native calls that
the repository only declares are modelled from the specification and
marked as such in their doc comments.  Python integers are `Int`,
Python `None`-able references are `Option`, raised exceptions are the
`Except` error channel, and observable native side effects are traced as
explicit event lists.
-/

namespace Moxie

/-- Python exception values that the embedded code can raise. -/
inductive PyExc where
  | valueError (msg : String)
  | timeoutError
deriving DecidableEq, Repr

/-! ### Bit-trick characterisation of powers of two

`memory.py` tests `(alignment & (alignment - 1)) != 0` to reject
alignments that are not powers of two; the lemmas below connect that
bit trick to the mathematical statement. -/

theorem landSelf (n : Nat) : n &&& n = n := by
  apply Nat.eq_of_testBit_eq
  intro i
  simp [Nat.testBit_and]

theorem twoMul_land_succ (m : Nat) : (2 * m + 1) &&& (2 * m) = 2 * m := by
  have h := Nat.land_bit true m false m
  simp [Nat.bit_val] at h
  simpa [Nat.land, landSelf] using h

theorem twoMul_land_pred (m : Nat) (hm : 1 ≤ m) :
    (2 * m) &&& (2 * m - 1) = 2 * (m &&& (m - 1)) := by
  have hrw : 2 * m - 1 = 2 * (m - 1) + 1 := by omega
  have h := Nat.land_bit false m true (m - 1)
  simp [Nat.bit_val] at h
  rw [hrw]
  simpa [Nat.land] using h

theorem land_pred_eq_zero_iff :
    ∀ n : Nat, 1 ≤ n → ((n &&& (n - 1)) = 0 ↔ ∃ k : Nat, n = 2 ^ k) := by
  intro n
  induction n using Nat.strong_induction_on with
  | _ n ih =>
    intro hn
    rcases Nat.even_or_odd n with he | ho
    · obtain ⟨m, hm⟩ := he
      have hn2 : n = 2 * m := by omega
      have hm1 : 1 ≤ m := by omega
      subst hn2
      rw [twoMul_land_pred m hm1]
      have hiff := ih m (by omega) hm1
      constructor
      · intro h0
        have : m &&& (m - 1) = 0 := by omega
        obtain ⟨k, hk⟩ := hiff.mp this
        exact ⟨k + 1, by rw [hk]; ring⟩
      · rintro ⟨k, hk⟩
        match k with
        | 0 => omega
        | k + 1 =>
          have hmk : m = 2 ^ k := by
            have : 2 * m = 2 * 2 ^ k := by rw [hk]; ring
            omega
          have : m &&& (m - 1) = 0 := hiff.mpr ⟨k, hmk⟩
          omega
    · obtain ⟨m, hm⟩ := ho
      subst hm
      have hstep : (2 * m + 1) - 1 = 2 * m := by omega
      rw [hstep, twoMul_land_succ m]
      constructor
      · intro h0
        exact ⟨0, by omega⟩
      · rintro ⟨k, hk⟩
        match k with
        | 0 => omega
        | k + 1 =>
          exfalso
          have : 2 * m + 1 = 2 * 2 ^ k := by rw [hk]; ring
          omega

theorem int_land_coe (m n : Nat) :
    Int.land (m : Int) (n : Int) = ((m &&& n : Nat) : Int) := by
  simp [Int.land]

theorem int_land_pred_eq_zero_iff (a : Int) (ha : 1 ≤ a) :
    (Int.land a (a - 1) = 0 ↔ ∃ k : Nat, a = 2 ^ k) := by
  obtain ⟨n, rfl⟩ : ∃ n : Nat, a = (n : Int) :=
    ⟨a.toNat, (Int.toNat_of_nonneg (by omega)).symm⟩
  have hn1 : 1 ≤ n := by exact_mod_cast ha
  have hpred : (n : Int) - 1 = ((n - 1 : Nat) : Int) := by
    push_cast [hn1]
    ring
  rw [hpred, int_land_coe]
  constructor
  · intro h0
    have h0' : n &&& (n - 1) = 0 := by exact_mod_cast h0
    obtain ⟨k, hk⟩ := (land_pred_eq_zero_iff n hn1).mp h0'
    refine ⟨k, ?_⟩
    rw [hk]
    push_cast
    ring
  · rintro ⟨k, hk⟩
    have hk' : n = 2 ^ k := by exact_mod_cast hk
    have h0 := (land_pred_eq_zero_iff n hn1).mpr ⟨k, hk'⟩
    exact_mod_cast congrArg (fun m : Nat => (m : Int)) h0

/-! ### `moxie/memory.py` -/

/-- `DEFAULT_ALIGNMENT` from `moxie/memory.py`. -/
def DEFAULT_ALIGNMENT : Int := 16

/-- The error kinds the allocator constructor can report. -/
inductive MemError where
  | invalidAlignment
  | invalidChunkSize
deriving DecidableEq, Repr

/-- The state of a constructed `MemoryAllocator` (native handle plus the
fields the Python wrapper caches). -/
structure MemoryAllocator where
  chunk_size : Int
  alignment : Int
  page_size : Int
deriving DecidableEq, Repr

/-- Modelled from the spec: the native `_mc.create_memory_allocator`
(missing from `src/`; only its C build script is present).  Per §6 and
§4.1 the alignment must satisfy `1 ≤ a ≤ page_size`; the wrapper has
already checked the lower bound and power-of-two-ness, so the remaining
native-side rejection is an alignment exceeding the host page size
(InvalidAlignment).  Construction otherwise succeeds. -/
def create_memory_allocator (chunk_size alignment page_size : Int) :
    Except MemError MemoryAllocator :=
  if page_size < alignment then Except.error MemError.invalidAlignment
  else Except.ok ⟨chunk_size, alignment, page_size⟩

/-- `MemoryAllocator.__init__` from `moxie/memory.py`.  `page_size` is
the ambient host page size consulted by the native layer. -/
def MemoryAllocator.init (page_size chunk_size alignment : Int) :
    Except MemError MemoryAllocator :=
  if alignment < 1 then
    Except.error MemError.invalidAlignment
  else if Int.land alignment (alignment - 1) ≠ 0 then
    Except.error MemError.invalidAlignment
  else if chunk_size ≤ alignment then
    Except.error MemError.invalidChunkSize
  else
    create_memory_allocator chunk_size alignment page_size

/-- `MemoryAllocator.__init__` with the `alignment` parameter left at
its declared default. -/
def MemoryAllocator.initDefault (page_size chunk_size : Int) :
    Except MemError MemoryAllocator :=
  MemoryAllocator.init page_size chunk_size DEFAULT_ALIGNMENT

/-! ### Enumerations from `moxie/scheduler.py`

Each Python `IntEnum` member is embedded as the `Int` it is bound to;
aliased members (two names bound to the same value, as `CLEAR`/`NONE`
and `JobId.INVALID`/`JobId.NONE`) simply denote equal integers. -/

namespace JobQueueSignal

def NONE : Int := 0

def CLEAR : Int := 0

def TERMINATE : Int := 1

def USER : Int := 2

end JobQueueSignal

namespace JobId

def NONE : Int := 0

def INVALID : Int := 0

end JobId

namespace JobState

def UNINITIALIZED : Int := 0

def NOT_SUBMITTED : Int := 1

def NOT_READY : Int := 2

def READY : Int := 3

def RUNNING : Int := 4

def COMPLETED : Int := 5

def CANCELED : Int := 6

end JobState

namespace JobCallType

def EXECUTE : Int := 0

def CLEANUP : Int := 1

end JobCallType

namespace JobSubmitType

def RUN : Int := 0

def CANCEL : Int := -1

end JobSubmitType

namespace JobSubmitResult

def SUCCESS : Int := 0

def INVALID_JOB : Int := -1

def TOO_MANY_WAITERS : Int := -2

end JobSubmitResult

/-! ### Dictionaries

Python `dict`s keyed by `int` are embedded as association lists with
unique keys; `dictGet` is `d.get(k)` / `k in d`, and `dictSet` is
`d[k] = v` (replace the binding if the key is present, append
otherwise). -/

def dictGet {α : Type} : List (Int × α) → Int → Option α
  | [], _ => none
  | (k, v) :: rest, key => if k = key then some v else dictGet rest key

def dictSet {α : Type} : List (Int × α) → Int → α → List (Int × α)
  | [], key, v => [(key, v)]
  | (k, w) :: rest, key, v =>
      if k = key then (k, v) :: rest else (k, w) :: dictSet rest key v

theorem dictGet_dictSet_same {α : Type} (m : List (Int × α)) (k : Int) (v : α) :
    dictGet (dictSet m k v) k = some v := by
  induction m with
  | nil => simp [dictGet, dictSet]
  | cons p rest ih =>
    by_cases h : p.1 = k
    · simp [dictSet, dictGet, h]
    · simp [dictSet, dictGet, h, ih]

theorem dictGet_dictSet_other {α : Type} (m : List (Int × α)) (k k' : Int)
    (v : α) (hne : k' ≠ k) : dictGet (dictSet m k v) k' = dictGet m k' := by
  have hne' : ¬ k = k' := fun h => hne h.symm
  induction m with
  | nil => simp [dictGet, dictSet, hne']
  | cons p rest ih =>
    obtain ⟨pk, pv⟩ := p
    by_cases h : pk = k
    · simp [dictSet, dictGet, h, hne']
    · by_cases h2 : pk = k'
      · simp [dictSet, dictGet, h, h2, hne, ih]
      · simp [dictSet, dictGet, h, h2, ih]

/-! ### `moxie/scheduler.py`: queues, system, contexts

Native `_moxie_core` objects are referred to through opaque `Nat`
handles, and the observable calls the Python layer makes into the
native library are recorded as `SchedEvent`s. -/

/-- `JobQueue` from `moxie/scheduler.py`: the public `id` plus the
handle of the native queue created by `_mc.create_job_queue`. -/
structure JobQueue where
  id : Int
  internal : Nat
deriving DecidableEq, Repr

/-- A `threading.Thread` as the scheduler code observes it: its
identity token (`ident`) and whether `is_alive()` currently returns
`True`. -/
structure ThreadRec where
  ident : Nat
  alive : Bool
deriving DecidableEq, Repr

/-- Observable calls into the native `_moxie_core` layer and into the
host threading library. -/
inductive SchedEvent where
  | signalQueue (handle : Nat) (signal : Int)
  | joinThread (ident : Nat) (timeout : Option Int)
  | nativeWorkerCount (queue_id : Int)
  | releaseContext (handle : Nat)
deriving DecidableEq, Repr

/-- `JobSystem` state from `moxie/scheduler.py` (the lock fields guard
the shallow embedding's atomic updates and carry no state of their
own; `nextHandle` is the supply of fresh native handles). -/
structure JobSystem where
  name : String
  queues : List JobQueue
  threads : List ThreadRec
  contexts : List Nat
  internal : Nat
  id_to_context : List (Int × Nat)
  id_to_queue : List (Int × JobQueue)
  id_to_thread : List (Int × ThreadRec)
  id_to_thread_name : List (Int × String)
  nextHandle : Nat
deriving DecidableEq, Repr

/-- `JobSystem.__init__` from `moxie/scheduler.py`.  The native
`_mc.create_job_scheduler(context_count)` call is an opaque handle
allocation. -/
def JobSystem.init (name : Option String) (context_count : Int) :
    Except PyExc JobSystem :=
  if context_count < 0 then
    Except.error (PyExc.valueError "The supplied context count must be >= 0")
  else
    Except.ok
      { name := (match name with | some n => n | none => "Unnamed")
        queues := []
        threads := []
        contexts := []
        internal := 0
        id_to_context := []
        id_to_queue := []
        id_to_thread := []
        id_to_thread_name := []
        nextHandle := 1 }

/-- `JobSystem.get_queue` from `moxie/scheduler.py`: look the queue up
in `_id_to_queue`, or create a fresh `JobQueue`, register it in the map
and append it to `queues`. -/
def JobSystem.get_queue (s : JobSystem) (queue_id : Int) :
    JobQueue × JobSystem :=
  match dictGet s.id_to_queue queue_id with
  | some q => (q, s)
  | none =>
      let q : JobQueue := ⟨queue_id, s.nextHandle⟩
      (q, { s with
              id_to_queue := dictSet s.id_to_queue queue_id q
              queues := s.queues ++ [q]
              nextHandle := s.nextHandle + 1 })

/-- `JobSystem.get_queue_worker_count` from `moxie/scheduler.py`.  The
native `_mc.get_worker_count_for_queue` call is modelled as consulting
the oracle `wc` and is recorded in the event trace. -/
def JobSystem.get_queue_worker_count (s : JobSystem) (wc : Int → Int)
    (queue_id : Int) : Option Int × List SchedEvent :=
  match dictGet s.id_to_queue queue_id with
  | none => (none, [])
  | some _ => (some (wc queue_id), [SchedEvent.nativeWorkerCount queue_id])

/-- `JobSystem.register_thread` from `moxie/scheduler.py`.  The `thread`
argument may be Python `None`. -/
def JobSystem.register_thread (s : JobSystem) (thread : Option ThreadRec) :
    Except PyExc JobSystem :=
  match thread with
  | none => Except.error (PyExc.valueError "The thread argument is None")
  | some t =>
      if t.alive then
        Except.error (PyExc.valueError
          "Threads registered with the JobSystem must be in the unstarted state")
      else if t ∈ s.threads then
        Except.ok s
      else
        Except.ok { s with threads := s.threads ++ [t] }

/-- Modelled from the spec: the native `_mc.terminate_job_scheduler`
(missing from `src/`).  Per §4.5, `terminate()` "signals every queue
with TERMINATE"; the model emits one signal event per registered
queue. -/
def terminate_job_scheduler (s : JobSystem) : List SchedEvent :=
  s.queues.map (fun q => SchedEvent.signalQueue q.internal JobQueueSignal.TERMINATE)

/-- One iteration of the join loop in `JobSystem.terminate_threads`:
`if thread.is_alive(): thread.join(timeout)`.  Whether the join raises
(for example with a timeout error) is decided by the oracle
`joinFails`. -/
def tryJoin (t : ThreadRec) (timeout : Option Int) (joinFails : Nat → Bool) :
    Except PyExc Unit × List SchedEvent :=
  if t.alive then
    ((if joinFails t.ident then Except.error PyExc.timeoutError else Except.ok ()),
     [SchedEvent.joinThread t.ident timeout])
  else
    (Except.ok (), [])

/-- The `try: ... except Exception: pass` wrapper around each join. -/
def pyTrySwallow (r : Except PyExc Unit) : Except PyExc Unit :=
  match r with
  | Except.error _ => Except.ok ()
  | Except.ok u => Except.ok u

/-- The join loop of `JobSystem.terminate_threads`, iterating over the
registered threads in order and propagating any exception that escapes
an iteration (none can, because of the `try`/`except`). -/
def terminateJoinLoop (threads : List ThreadRec) (timeout : Option Int)
    (joinFails : Nat → Bool) : Except PyExc Unit × List SchedEvent :=
  match threads with
  | [] => (Except.ok (), [])
  | t :: rest =>
      let r := tryJoin t timeout joinFails
      match pyTrySwallow r.1 with
      | Except.error e => (Except.error e, r.2)
      | Except.ok _ =>
          let rec' := terminateJoinLoop rest timeout joinFails
          (rec'.1, r.2 ++ rec'.2)

/-- `JobSystem.terminate_threads` from `moxie/scheduler.py`: terminate
the native scheduler (signalling every queue), then join each alive
registered thread, swallowing join exceptions. -/
def JobSystem.terminate_threads (s : JobSystem) (timeout : Option Int)
    (joinFails : Nat → Bool) : Except PyExc Unit × List SchedEvent :=
  let sigs := terminate_job_scheduler s
  let joins := terminateJoinLoop s.threads timeout joinFails
  (joins.1, sigs ++ joins.2)

/-- `JobContext` state from `moxie/scheduler.py`: after `release` the
reference fields are rebound to Python `None`, so each is an
`Option`.  `system` holds an opaque reference token for the owning
`JobSystem`. -/
structure JobContext where
  queue : Option JobQueue
  system : Option Nat
  thread_id : Option Int
  internal : Option Nat
deriving DecidableEq, Repr

/-- `JobContext.release` from `moxie/scheduler.py`: release the native
context if it is still held, then set `queue`, `system` and
`thread_id` to `None`. -/
def JobContext.release (c : JobContext) : JobContext × List SchedEvent :=
  let step :=
    match c.internal with
    | some h => ({ c with internal := none }, [SchedEvent.releaseContext h])
    | none => (c, [])
  ({ step.1 with queue := none, system := none, thread_id := none }, step.2)

/-- `JobContext.__exit__` from `moxie/scheduler.py` (the context-manager
exit handler simply calls `release`). -/
def JobContext.exitCtx (c : JobContext) : JobContext × List SchedEvent :=
  c.release

/-! ### The native job pool and the submit algorithm

`JobContext.submit_job` delegates to `_mc.submit_python_job`, whose C
implementation is not under `src/` (only its build script is).  The
definitions below are therefore modelled from the specification: the
job record of spec §3, the completion algorithm of §4.3, and the
six-step submit algorithm of §4.3. -/

/-- Modelled from the spec: the job record of §3 (`body_handle` and
`result_code` are owned by the callback adapter and carry no scheduler
state, so they are omitted; `finished_executing` records that the body
returned while completion was deferred on outstanding children, the
condition §4.3 calls "parent finished executing"). -/
structure JobRecord where
  state : Int
  parent : Int
  outstanding_children : Nat
  predecessors_remaining : Nat
  waiters : List Int
  target_queue : Int
  cancel_flag : Bool
  finished_executing : Bool
deriving DecidableEq, Repr

/-- The live job records of the pool, keyed by job identifier. -/
abbrev JobPool := List (Int × JobRecord)

/-- A job state is terminal when it is COMPLETED or CANCELED. -/
def isTerminal (st : Int) : Bool :=
  st == JobState.COMPLETED || st == JobState.CANCELED

/-- Observable effects of the native submit/complete algorithms. -/
inductive PoolEvent where
  | stateChange (job : Int) (state : Int)
  | enqueueJob (job : Int) (queue : Int)
  | cleanup (job : Int)
  | reclaim (job : Int)
deriving DecidableEq, Repr

/-- Removal of a binding from a pool (slot reclamation). -/
def dictRemove {α : Type} : List (Int × α) → Int → List (Int × α)
  | [], _ => []
  | (k, v) :: rest, key =>
      if k = key then rest else (k, v) :: dictRemove rest key

/-- Modelled from the spec: step 3 of the completion algorithm of §4.3.
Each waiter of the completing job has its predecessor count decremented;
a waiter that reaches zero while NOT_READY becomes READY and is
enqueued on its target queue.  Terminal waiters are skipped (§4.3:
waiter-list entries of canceled jobs are removed lazily). -/
def notifyWaiters : JobPool → List Int → JobPool × List PoolEvent
  | pool, [] => (pool, [])
  | pool, w :: rest =>
      match dictGet pool w with
      | none => notifyWaiters pool rest
      | some r =>
          if isTerminal r.state then notifyWaiters pool rest
          else
            let r1 := { r with predecessors_remaining := r.predecessors_remaining - 1 }
            if r1.predecessors_remaining = 0 ∧ r1.state = JobState.NOT_READY then
              let next := notifyWaiters (dictSet pool w { r1 with state := JobState.READY }) rest
              (next.1, PoolEvent.stateChange w JobState.READY ::
                PoolEvent.enqueueJob w r1.target_queue :: next.2)
            else
              notifyWaiters (dictSet pool w r1) rest

/-- Modelled from the spec: the completion algorithm of §4.3.
If children are outstanding, completion is deferred (the record is
flagged so the last child's completion re-attempts it); otherwise the
job becomes COMPLETED (or stays CANCELED), its waiters are notified,
the parent's outstanding-child count is decremented (recursively
completing the parent when it had finished executing and this was its
last child), the adapter is invoked in CLEANUP mode, and the slot is
reclaimed.  `fuel` bounds the parent-chain recursion. -/
def completeJob : Nat → JobPool → Int → JobPool × List PoolEvent
  | 0, pool, _ => (pool, [])
  | fuel + 1, pool, j =>
      match dictGet pool j with
      | none => (pool, [])
      | some r =>
          if r.outstanding_children ≠ 0 then
            (dictSet pool j { r with finished_executing := true }, [])
          else
            let newState :=
              if r.state = JobState.CANCELED then JobState.CANCELED
              else JobState.COMPLETED
            let pool1 := dictSet pool j { r with state := newState }
            let step3 := notifyWaiters pool1 r.waiters
            let step4 : JobPool × List PoolEvent :=
              if r.parent ≠ JobId.NONE then
                match dictGet step3.1 r.parent with
                | none => (step3.1, [])
                | some p =>
                    let p1 := { p with outstanding_children := p.outstanding_children - 1 }
                    let pool' := dictSet step3.1 r.parent p1
                    if p1.finished_executing ∧ p1.outstanding_children = 0 then
                      completeJob fuel pool' r.parent
                    else (pool', [])
              else (step3.1, [])
            (dictRemove step4.1 j,
             PoolEvent.stateChange j newState :: step3.2 ++ step4.2 ++
               [PoolEvent.cleanup j, PoolEvent.reclaim j])

/-- Outcome of the dependency-processing loop (step 3 of the submit
algorithm). -/
inductive DepOutcome where
  | ok (pool : JobPool)
  | failed (pool : JobPool) (events : List PoolEvent)
deriving Repr

/-- Modelled from the spec: step 3 of the submit algorithm of §4.3.
Dependencies are processed in order: terminal (or reclaimed, hence
stale) dependencies are skipped; a dependency whose waiter list is full
(`maxW` is WAITERS_MAX) cancels the submitted job, runs its completion
path and fails with TOO_MANY_WAITERS; otherwise the submitted job is
appended to the dependency's waiter list and its own predecessor count
is incremented. -/
def processDeps (maxW fuel : Nat) (j : Int) :
    JobPool → List Int → DepOutcome
  | pool, [] => DepOutcome.ok pool
  | pool, d :: rest =>
      match dictGet pool d with
      | none => processDeps maxW fuel j pool rest
      | some rd =>
          if isTerminal rd.state then
            processDeps maxW fuel j pool rest
          else if maxW ≤ rd.waiters.length then
            match dictGet pool j with
            | some rj =>
                let pool1 := dictSet pool j { rj with state := JobState.CANCELED }
                let comp := completeJob fuel pool1 j
                DepOutcome.failed comp.1
                  (PoolEvent.stateChange j JobState.CANCELED :: comp.2)
            | none =>
                let comp := completeJob fuel pool j
                DepOutcome.failed comp.1 comp.2
          else
            let pool1 := dictSet pool d { rd with waiters := rd.waiters ++ [j] }
            let pool2 :=
              match dictGet pool1 j with
              | some rj =>
                  dictSet pool1 j
                    { rj with predecessors_remaining := rj.predecessors_remaining + 1 }
              | none => pool1
            processDeps maxW fuel j pool2 rest

/-- Modelled from the spec: the native `_mc.submit_python_job`, the
six-step submit algorithm of §4.3.  Returns the submit result code
together with the updated pool and the event trace. -/
def submit_python_job (maxW fuel : Nat) (pool : JobPool) (j : Int)
    (target : Int) (dependencies : List Int) (submit : Int) :
    Int × JobPool × List PoolEvent :=
  match dictGet pool j with
  | none => (JobSubmitResult.INVALID_JOB, pool, [])
  | some r =>
      if r.state ≠ JobState.NOT_SUBMITTED then
        (JobSubmitResult.INVALID_JOB, pool, [])
      else if submit = JobSubmitType.CANCEL then
        let pool1 := dictSet pool j { r with cancel_flag := true, state := JobState.CANCELED }
        let comp := completeJob fuel pool1 j
        (JobSubmitResult.SUCCESS, comp.1,
         PoolEvent.stateChange j JobState.CANCELED :: comp.2)
      else
        match processDeps maxW fuel j pool dependencies with
        | DepOutcome.failed pool' evs =>
            (JobSubmitResult.TOO_MANY_WAITERS, pool', evs)
        | DepOutcome.ok pool1 =>
            let step4 : Option JobPool :=
              if r.parent ≠ JobId.NONE then
                match dictGet pool1 r.parent with
                | none => none
                | some p =>
                    if isTerminal p.state then none
                    else some (dictSet pool1 r.parent
                      { p with outstanding_children := p.outstanding_children + 1 })
              else some pool1
            match step4 with
            | none => (JobSubmitResult.INVALID_JOB, pool1, [])
            | some pool2 =>
                match dictGet pool2 j with
                | none => (JobSubmitResult.INVALID_JOB, pool2, [])
                | some rj =>
                    if rj.predecessors_remaining = 0 then
                      (JobSubmitResult.SUCCESS,
                       dictSet pool2 j { rj with state := JobState.READY, target_queue := target },
                       [PoolEvent.stateChange j JobState.READY,
                        PoolEvent.enqueueJob j target])
                    else
                      (JobSubmitResult.SUCCESS,
                       dictSet pool2 j { rj with state := JobState.NOT_READY, target_queue := target },
                       [PoolEvent.stateChange j JobState.NOT_READY])

/-- `JobContext.submit_job` from `moxie/scheduler.py`: the wrapper
forwards to `_mc.submit_python_job` and coerces the integer result into
the `JobSubmitResult` enumeration (the identity on the embedded
integers). -/
def JobContext.submit_job (maxW fuel : Nat) (pool : JobPool) (job : Int)
    (submit : Int) (target : Int) (dependencies : List Int) :
    Int × JobPool × List PoolEvent :=
  submit_python_job maxW fuel pool job target dependencies submit

/-! ### Helper lemmas -/

theorem dictGet_some_mem {α : Type} (m : List (Int × α)) (k : Int) (v : α)
    (h : dictGet m k = some v) : (k, v) ∈ m := by
  induction m with
  | nil => simp [dictGet] at h
  | cons p rest ih =>
    obtain ⟨pk, pv⟩ := p
    by_cases hk : pk = k
    · subst hk
      simp [dictGet] at h
      subst h
      exact List.mem_cons_self _ _
    · simp [dictGet, hk] at h
      exact List.mem_cons_of_mem _ (ih h)

theorem terminateJoinLoop_spec (timeout : Option Int) (joinFails : Nat → Bool) :
    ∀ threads : List ThreadRec,
      (terminateJoinLoop threads timeout joinFails).1 = Except.ok () ∧
      (terminateJoinLoop threads timeout joinFails).2 =
        (threads.filter (fun t => t.alive)).map
          (fun t => SchedEvent.joinThread t.ident timeout) := by
  intro threads
  induction threads with
  | nil => simp [terminateJoinLoop]
  | cons t rest ih =>
    by_cases ha : t.alive
    · by_cases hf : joinFails t.ident
      · simp [terminateJoinLoop, tryJoin, pyTrySwallow, ha, hf, ih.1, ih.2]
      · simp [terminateJoinLoop, tryJoin, pyTrySwallow, ha, hf, ih.1, ih.2]
    · simp [terminateJoinLoop, tryJoin, pyTrySwallow, ha, ih.1, ih.2]

/-! ### Claim theorems -/

/-- Claim C2: constructing a `MemoryAllocator` raises `ValueError` exactly
when the alignment is below 1, not a power of two, or above the host
page size, or the chunk size is not greater than the alignment; all
other pairs construct successfully, and the alignment defaults to
16. -/
theorem memory_allocator_ctor_spec (page_size chunk_size alignment : Int) :
    ((∃ e, MemoryAllocator.init page_size chunk_size alignment = Except.error e) ↔
      (alignment < 1 ∨ (¬ ∃ k : Nat, alignment = 2 ^ k) ∨
        page_size < alignment ∨ chunk_size ≤ alignment)) ∧
    MemoryAllocator.initDefault page_size chunk_size =
      MemoryAllocator.init page_size chunk_size 16 := by
  constructor
  · unfold MemoryAllocator.init create_memory_allocator
    by_cases h1 : alignment < 1
    · simp [h1]
    · have h1' : 1 ≤ alignment := by omega
      have hiff := int_land_pred_eq_zero_iff alignment h1'
      by_cases h2 : Int.land alignment (alignment - 1) = 0
      · have hpow : ∃ k : Nat, alignment = 2 ^ k := hiff.mp h2
        by_cases h3 : chunk_size ≤ alignment
        · simp [h1, h2, h3, hpow]
        · by_cases h4 : page_size < alignment
          · simp [h1, h2, h3, h4, hpow]
          · simp [h1, h2, h3, h4, hpow]
      · have hpow : ¬ ∃ k : Nat, alignment = 2 ^ k := fun h => h2 (hiff.mpr h)
        simp [h1, h2, hpow]
  · rfl

/-- Claim C3: the exported enumerations carry exactly the spec's values. -/
theorem enum_values_spec :
    JobState.UNINITIALIZED = 0 ∧ JobState.NOT_SUBMITTED = 1 ∧
    JobState.NOT_READY = 2 ∧ JobState.READY = 3 ∧ JobState.RUNNING = 4 ∧
    JobState.COMPLETED = 5 ∧ JobState.CANCELED = 6 ∧
    JobSubmitType.RUN = 0 ∧ JobSubmitType.CANCEL = -1 ∧
    JobSubmitResult.SUCCESS = 0 ∧ JobSubmitResult.INVALID_JOB = -1 ∧
    JobSubmitResult.TOO_MANY_WAITERS = -2 ∧
    JobQueueSignal.NONE = 0 ∧ JobQueueSignal.CLEAR = 0 ∧
    JobQueueSignal.TERMINATE = 1 ∧ JobQueueSignal.USER = 2 ∧
    JobCallType.EXECUTE = 0 ∧ JobCallType.CLEANUP = 1 := by
  decide

/-- Claim C8: the two reserved job identifiers are both the zero sentinel,
hence equal to each other. -/
theorem jobid_sentinels_spec :
    JobId.NONE = 0 ∧ JobId.INVALID = 0 ∧ JobId.NONE = JobId.INVALID := by
  decide

/-- Claim C4: the operation `JobSystem.get_queue` is an idempotent lookup-or-create: the
second call returns the queue the first call returned (its `id` being
the requested id), and leaves the system state, in particular `queues`
and the id-to-queue map, unchanged. -/
theorem get_queue_idempotent (s : JobSystem) (q : Int)
    (hinv : ∀ p ∈ s.id_to_queue, (p.2).id = p.1) :
    ((s.get_queue q).2.get_queue q).1 = (s.get_queue q).1 ∧
    ((s.get_queue q).2.get_queue q).2 = (s.get_queue q).2 ∧
    (s.get_queue q).1.id = q := by
  cases hq : dictGet s.id_to_queue q with
  | some q0 =>
    have hid := hinv (q, q0) (dictGet_some_mem _ _ _ hq)
    simp [JobSystem.get_queue, hq]
    exact hid
  | none =>
    have hsame := dictGet_dictSet_same s.id_to_queue q
      (⟨q, s.nextHandle⟩ : JobQueue)
    simp [JobSystem.get_queue, hq, hsame]

/-- Witness for claim C4: on a fresh system, two `get_queue 7` calls agree and
return the queue with id 7. -/
theorem get_queue_idempotent_witness :
    (((⟨"Main", [], [], [], 0, [], [], [], [], 1⟩ : JobSystem).get_queue 7).2.get_queue 7).1 =
      ((⟨"Main", [], [], [], 0, [], [], [], [], 1⟩ : JobSystem).get_queue 7).1 ∧
    (((⟨"Main", [], [], [], 0, [], [], [], [], 1⟩ : JobSystem).get_queue 7).2.get_queue 7).2 =
      ((⟨"Main", [], [], [], 0, [], [], [], [], 1⟩ : JobSystem).get_queue 7).2 ∧
    ((⟨"Main", [], [], [], 0, [], [], [], [], 1⟩ : JobSystem).get_queue 7).1.id = 7 :=
  get_queue_idempotent ⟨"Main", [], [], [], 0, [], [], [], [], 1⟩ 7 (by simp)

/-- Claim C5: the operation `terminate_threads` signals every queue with TERMINATE, then
joins each alive registered thread with the given per-thread timeout,
and returns normally whatever the joins do. -/
theorem terminate_threads_spec (s : JobSystem) (timeout : Option Int)
    (joinFails : Nat → Bool) :
    (s.terminate_threads timeout joinFails).1 = Except.ok () ∧
    (s.terminate_threads timeout joinFails).2 =
      s.queues.map (fun qu => SchedEvent.signalQueue qu.internal JobQueueSignal.TERMINATE) ++
        (s.threads.filter (fun t => t.alive)).map
          (fun t => SchedEvent.joinThread t.ident timeout) := by
  have h := terminateJoinLoop_spec timeout joinFails s.threads
  simp [JobSystem.terminate_threads, terminate_job_scheduler, h.1, h.2]

/-- Claim C6: the operation `register_thread` raises `ValueError` exactly for a `None` or
already-started thread; a valid unstarted thread is appended to the
thread list, and a repeated registration leaves the state unchanged. -/
theorem register_thread_spec (s : JobSystem) (t : Option ThreadRec) :
    ((∃ e, s.register_thread t = Except.error e) ↔
      (t = none ∨ ∃ tr, t = some tr ∧ tr.alive = true)) ∧
    (∀ tr, t = some tr → tr.alive = false → tr ∉ s.threads →
      s.register_thread t = Except.ok { s with threads := s.threads ++ [tr] }) ∧
    (∀ tr s', t = some tr → s.register_thread t = Except.ok s' →
      s'.register_thread t = Except.ok s') := by
  refine ⟨?_, ?_, ?_⟩
  · cases t with
    | none => simp [JobSystem.register_thread]
    | some tr =>
      by_cases ha : tr.alive
      · simp [JobSystem.register_thread, ha]
      · by_cases hm : tr ∈ s.threads
        · simp [JobSystem.register_thread, ha, hm]
        · simp [JobSystem.register_thread, ha, hm]
  · intro tr htr ha hm
    subst htr
    simp [JobSystem.register_thread, ha, hm]
  · intro tr s' htr hok
    subst htr
    by_cases ha : tr.alive
    · simp [JobSystem.register_thread, ha] at hok
    · by_cases hm : tr ∈ s.threads
      · simp [JobSystem.register_thread, ha, hm] at hok
        subst hok
        simp [JobSystem.register_thread, ha, hm]
      · simp [JobSystem.register_thread, ha, hm] at hok
        have hm' : tr ∈ s'.threads := by
          rw [← hok]
          simp
        simp [JobSystem.register_thread, ha, hm']

/-- Witness for claim C6: registering a fresh unstarted thread on an empty system
appends it to the thread list. -/
theorem register_thread_witness :
    JobSystem.register_thread ⟨"Main", [], [], [], 0, [], [], [], [], 1⟩
        (some ⟨1, false⟩) =
      Except.ok ⟨"Main", [], [⟨1, false⟩], [], 0, [], [], [], [], 1⟩ := by
  have h := (register_thread_spec ⟨"Main", [], [], [], 0, [], [], [], [], 1⟩
      (some ⟨1, false⟩)).2.1 ⟨1, false⟩ rfl rfl (by simp)
  simpa using h

/-- Claim C7: the `JobSystem` constructor raises `ValueError` exactly for a
negative context count, and a fresh system starts with empty queue,
thread and context lists. -/
theorem jobsystem_init_spec (name : Option String) (cc : Int) :
    ((∃ e, JobSystem.init name cc = Except.error e) ↔ cc < 0) ∧
    (∀ s, JobSystem.init name cc = Except.ok s →
      s.queues = [] ∧ s.threads = [] ∧ s.contexts = []) := by
  by_cases h : cc < 0
  · constructor
    · simp [JobSystem.init, h]
    · intro s hs
      simp [JobSystem.init, h] at hs
  · constructor
    · simp [JobSystem.init, h]
    · intro s hs
      simp [JobSystem.init, h] at hs
      subst hs
      simp

/-- Witness for claim C7: constructing with context count 1 succeeds with empty
lists. -/
theorem jobsystem_init_witness :
    ∃ s, JobSystem.init (some "Main") 1 = Except.ok s ∧
      s.queues = [] ∧ s.threads = [] ∧ s.contexts = [] := by
  refine ⟨⟨"Main", [], [], [], 0, [], [], [], [], 1⟩, ?_, ?_⟩
  · rfl
  · exact (jobsystem_init_spec (some "Main") 1).2 _ rfl

/-- Claim C9: the operation `JobContext.release` releases the native context once, sets the
reference fields to `None`, is a no-op thereafter, and `__exit__`
performs exactly a release. -/
theorem release_idempotent (c : JobContext) (h : Nat)
    (hc : c.internal = some h) :
    (c.release.1.queue = none ∧ c.release.1.system = none ∧
      c.release.1.thread_id = none ∧ c.release.1.internal = none ∧
      c.release.2 = [SchedEvent.releaseContext h]) ∧
    c.release.1.release = (c.release.1, []) ∧
    JobContext.exitCtx c = c.release := by
  obtain ⟨cq, cs, ct, ci⟩ := c
  simp only at hc
  subst hc
  simp [JobContext.release, JobContext.exitCtx]

/-- Witness for claim C9: releasing a live concrete context empties its fields,
emits one native release, and releasing again changes nothing. -/
theorem release_idempotent_witness :
    ((JobContext.release ⟨some ⟨1, 2⟩, some 0, some 1, some 5⟩).1.queue = none ∧
      (JobContext.release ⟨some ⟨1, 2⟩, some 0, some 1, some 5⟩).1.system = none ∧
      (JobContext.release ⟨some ⟨1, 2⟩, some 0, some 1, some 5⟩).1.thread_id = none ∧
      (JobContext.release ⟨some ⟨1, 2⟩, some 0, some 1, some 5⟩).1.internal = none ∧
      (JobContext.release ⟨some ⟨1, 2⟩, some 0, some 1, some 5⟩).2 =
        [SchedEvent.releaseContext 5]) ∧
    (JobContext.release ⟨some ⟨1, 2⟩, some 0, some 1, some 5⟩).1.release =
      ((JobContext.release ⟨some ⟨1, 2⟩, some 0, some 1, some 5⟩).1, []) ∧
    JobContext.exitCtx ⟨some ⟨1, 2⟩, some 0, some 1, some 5⟩ =
      JobContext.release ⟨some ⟨1, 2⟩, some 0, some 1, some 5⟩ :=
  release_idempotent ⟨some ⟨1, 2⟩, some 0, some 1, some 5⟩ 5 rfl

/-- Claim C10: the operation `get_queue_worker_count` returns `None` for an id absent from
the queue registry, consults the native count only when the id is
registered, and `get_queue` on other ids never registers this one. -/
theorem get_queue_worker_count_spec (s : JobSystem) (wc : Int → Int) (q : Int) :
    (dictGet s.id_to_queue q = none →
      s.get_queue_worker_count wc q = (none, [])) ∧
    (∀ e ∈ (s.get_queue_worker_count wc q).2,
      e = SchedEvent.nativeWorkerCount q ∧ ∃ qq, dictGet s.id_to_queue q = some qq) ∧
    (∀ q' : Int, q' ≠ q →
      dictGet ((s.get_queue q').2).id_to_queue q = dictGet s.id_to_queue q) := by
  refine ⟨?_, ?_, ?_⟩
  · intro h
    simp [JobSystem.get_queue_worker_count, h]
  · intro e he
    cases hq : dictGet s.id_to_queue q with
    | none => simp [JobSystem.get_queue_worker_count, hq] at he
    | some qq =>
      simp [JobSystem.get_queue_worker_count, hq] at he
      exact ⟨he, qq, rfl⟩
  · intro q' hne
    cases hq' : dictGet s.id_to_queue q' with
    | some q0 => simp [JobSystem.get_queue, hq']
    | none =>
      simp [JobSystem.get_queue, hq',
        dictGet_dictSet_other s.id_to_queue q' q _ (Ne.symm hne)]

/-- Witness for claim C10: on a fresh system the count for id 3 is `None` with no
native call, and `get_queue 5` does not register id 3. -/
theorem get_queue_worker_count_witness :
    JobSystem.get_queue_worker_count ⟨"Main", [], [], [], 0, [], [], [], [], 1⟩
        (fun _ => 0) 3 = (none, []) ∧
    dictGet (((⟨"Main", [], [], [], 0, [], [], [], [], 1⟩ : JobSystem).get_queue 5).2).id_to_queue 3 =
      dictGet (⟨"Main", [], [], [], 0, [], [], [], [], 1⟩ : JobSystem).id_to_queue 3 := by
  constructor
  · exact (get_queue_worker_count_spec ⟨"Main", [], [], [], 0, [], [], [], [], 1⟩
      (fun _ => 0) 3).1 rfl
  · exact (get_queue_worker_count_spec ⟨"Main", [], [], [], 0, [], [], [], [], 1⟩
      (fun _ => 0) 3).2.2 5 (by decide)

theorem processDeps_full_fails (maxW fuel : Nat) (j : Int) :
    ∀ (deps : List Int) (pool : JobPool) (rj : JobRecord),
      dictGet pool j = some rj →
      (∃ d ∈ deps, ∃ rd, dictGet pool d = some rd ∧
        isTerminal rd.state = false ∧ maxW ≤ rd.waiters.length) →
      ∃ pool' evs,
        processDeps maxW fuel j pool deps = DepOutcome.failed pool' evs ∧
        PoolEvent.stateChange j JobState.CANCELED ∈ evs := by
  intro deps
  induction deps with
  | nil =>
    intro pool rj hj hful
    obtain ⟨d, hdmem, _⟩ := hful
    simp at hdmem
  | cons e rest ih =>
    intro pool rj hj hful
    obtain ⟨d, hdmem, rd, hrd, hterm, hlen⟩ := hful
    cases he : dictGet pool e with
    | none =>
      have hde : d ≠ e := by
        intro h
        rw [h, he] at hrd
        exact Option.noConfusion hrd
      have hdr : d ∈ rest := by
        cases List.mem_cons.mp hdmem with
        | inl h => exact absurd h hde
        | inr h => exact h
      have hres := ih pool rj hj ⟨d, hdr, rd, hrd, hterm, hlen⟩
      simpa [processDeps, he] using hres
    | some re =>
      by_cases hterm_e : isTerminal re.state = true
      · have hde : d ≠ e := by
          intro h
          rw [h, he] at hrd
          injection hrd with h2
          rw [h2, hterm] at hterm_e
          exact Bool.noConfusion hterm_e
        have hdr : d ∈ rest := by
          cases List.mem_cons.mp hdmem with
          | inl h => exact absurd h hde
          | inr h => exact h
        have hres := ih pool rj hj ⟨d, hdr, rd, hrd, hterm, hlen⟩
        simpa [processDeps, he, hterm_e] using hres
      · by_cases hfull_e : maxW ≤ re.waiters.length
        · have hstep : processDeps maxW fuel j pool (e :: rest) =
              DepOutcome.failed
                (completeJob fuel
                  (dictSet pool j { rj with state := JobState.CANCELED }) j).1
                (PoolEvent.stateChange j JobState.CANCELED ::
                  (completeJob fuel
                    (dictSet pool j { rj with state := JobState.CANCELED }) j).2) := by
            simp [processDeps, he, hterm_e, hfull_e, hj]
          exact ⟨_, _, hstep, List.mem_cons_self _ _⟩
        · have hde : d ≠ e := by
            intro h
            rw [h, he] at hrd
            injection hrd with h2
            exact hfull_e (h2 ▸ hlen)
          have hdr : d ∈ rest := by
            cases List.mem_cons.mp hdmem with
            | inl h => exact absurd h hde
            | inr h => exact h
          by_cases hje : j = e
          · -- the submitted job is itself the dependency being appended to
            have hrj_re : rj = re := by
              rw [hje, he] at hj
              injection hj with h2
              exact h2.symm
            have hget1j :
                dictGet (dictSet pool e { re with waiters := re.waiters ++ [j] }) j =
                  some { re with waiters := re.waiters ++ [j] } := by
              rw [hje]
              exact dictGet_dictSet_same _ _ _
            have hstep : processDeps maxW fuel j pool (e :: rest) =
                processDeps maxW fuel j
                  (dictSet
                    (dictSet pool e { re with waiters := re.waiters ++ [j] }) j
                    { { re with waiters := re.waiters ++ [j] } with
                        predecessors_remaining :=
                          ({ re with waiters := re.waiters ++ [j] }).predecessors_remaining + 1 })
                  rest := by
              simp [processDeps, he, hterm_e, hfull_e, hget1j]
            set pool2 :=
              dictSet (dictSet pool e { re with waiters := re.waiters ++ [j] }) j
                { { re with waiters := re.waiters ++ [j] } with
                    predecessors_remaining :=
                      ({ re with waiters := re.waiters ++ [j] }).predecessors_remaining + 1 }
              with hpool2
            have hget2j : dictGet pool2 j =
                some { { re with waiters := re.waiters ++ [j] } with
                        predecessors_remaining :=
                          ({ re with waiters := re.waiters ++ [j] }).predecessors_remaining + 1 } :=
              dictGet_dictSet_same _ _ _
            have hd2 : dictGet pool2 d = some rd := by
              rw [hpool2]
              have hdj : d ≠ j := fun h => hde (h.trans hje)
              rw [dictGet_dictSet_other _ _ _ _ hdj,
                dictGet_dictSet_other _ _ _ _ hde]
              exact hrd
            have hres := ih pool2 _ hget2j ⟨d, hdr, rd, hd2, hterm, hlen⟩
            rw [hstep]
            exact hres
          · have hget1j :
                dictGet (dictSet pool e { re with waiters := re.waiters ++ [j] }) j =
                  some rj := by
              rw [dictGet_dictSet_other _ _ _ _ hje]
              exact hj
            have hstep : processDeps maxW fuel j pool (e :: rest) =
                processDeps maxW fuel j
                  (dictSet
                    (dictSet pool e { re with waiters := re.waiters ++ [j] }) j
                    { rj with predecessors_remaining := rj.predecessors_remaining + 1 })
                  rest := by
              simp [processDeps, he, hterm_e, hfull_e, hget1j]
            set pool2 :=
              dictSet (dictSet pool e { re with waiters := re.waiters ++ [j] }) j
                { rj with predecessors_remaining := rj.predecessors_remaining + 1 }
              with hpool2
            have hget2j : dictGet pool2 j =
                some { rj with predecessors_remaining := rj.predecessors_remaining + 1 } :=
              dictGet_dictSet_same _ _ _
            by_cases hdj : d = j
            · -- the surviving witness dependency is the submitted job itself
              have hrd_rj : rd = rj := by
                rw [hdj, hj] at hrd
                injection hrd with h2
                exact h2.symm
              have hd2 : dictGet pool2 d =
                  some { rj with predecessors_remaining := rj.predecessors_remaining + 1 } := by
                rw [hdj]
                exact hget2j
              have hres := ih pool2 _ hget2j
                ⟨d, hdr, { rj with predecessors_remaining := rj.predecessors_remaining + 1 },
                  hd2, by simpa [hrd_rj] using hterm, by simpa [hrd_rj] using hlen⟩
              rw [hstep]
              exact hres
            · have hd2 : dictGet pool2 d = some rd := by
                rw [hpool2]
                rw [dictGet_dictSet_other _ _ _ _ hdj,
                  dictGet_dictSet_other _ _ _ _ hde]
                exact hrd
              have hres := ih pool2 _ hget2j ⟨d, hdr, rd, hd2, hterm, hlen⟩
              rw [hstep]
              exact hres

/-- Claim C1: submitting a job to run with dependencies, one of which is a
live (non-terminal) job whose waiter list is already at WAITERS_MAX
capacity, fails with TOO_MANY_WAITERS and drives the submitted job to
the terminal state CANCELED. -/
theorem submit_job_too_many_waiters (maxW fuel : Nat) (pool : JobPool)
    (j target : Int) (deps : List Int) (rj : JobRecord)
    (hj : dictGet pool j = some rj)
    (hstate : rj.state = JobState.NOT_SUBMITTED)
    (hful : ∃ d ∈ deps, ∃ rd, dictGet pool d = some rd ∧
      isTerminal rd.state = false ∧ maxW ≤ rd.waiters.length) :
    (JobContext.submit_job maxW fuel pool j JobSubmitType.RUN target deps).1 =
      JobSubmitResult.TOO_MANY_WAITERS ∧
    PoolEvent.stateChange j JobState.CANCELED ∈
      (JobContext.submit_job maxW fuel pool j JobSubmitType.RUN target deps).2.2 := by
  obtain ⟨pool', evs, hproc, hmem⟩ :=
    processDeps_full_fails maxW fuel j deps pool rj hj hful
  have hrun : ¬ (JobSubmitType.RUN = JobSubmitType.CANCEL) := by decide
  constructor
  · simp [JobContext.submit_job, submit_python_job, hj, hstate, hrun, hproc]
  · simp [JobContext.submit_job, submit_python_job, hj, hstate, hrun, hproc]
    exact hmem

/-- Witness for claim C1: with WAITERS_MAX 1, submitting job 1 with a dependency
on the live job 2 whose single waiter slot is taken fails with
TOO_MANY_WAITERS and cancels job 1. -/
theorem submit_job_too_many_waiters_witness :
    (JobContext.submit_job 1 4
        [(1, ⟨JobState.NOT_SUBMITTED, 0, 0, 0, [], 0, false, false⟩),
         (2, ⟨JobState.NOT_READY, 0, 0, 1, [9], 0, false, false⟩)]
        1 JobSubmitType.RUN 1 [2]).1 = JobSubmitResult.TOO_MANY_WAITERS ∧
    PoolEvent.stateChange 1 JobState.CANCELED ∈
      (JobContext.submit_job 1 4
        [(1, ⟨JobState.NOT_SUBMITTED, 0, 0, 0, [], 0, false, false⟩),
         (2, ⟨JobState.NOT_READY, 0, 0, 1, [9], 0, false, false⟩)]
        1 JobSubmitType.RUN 1 [2]).2.2 :=
  submit_job_too_many_waiters 1 4
    [(1, ⟨JobState.NOT_SUBMITTED, 0, 0, 0, [], 0, false, false⟩),
     (2, ⟨JobState.NOT_READY, 0, 0, 1, [9], 0, false, false⟩)]
    1 1 [2] ⟨JobState.NOT_SUBMITTED, 0, 0, 0, [], 0, false, false⟩
    (by decide) (by decide)
    ⟨2, by decide, ⟨JobState.NOT_READY, 0, 0, 1, [9], 0, false, false⟩,
      by decide, by decide, by decide⟩

/-- Witness for claim C2: the constructor characterisation evaluated at
a concrete page size, chunk size and alignment. -/
theorem memory_allocator_ctor_spec_witness :
    ((∃ e, MemoryAllocator.init 4096 65536 16 = Except.error e) ↔
      ((16 : Int) < 1 ∨ (¬ ∃ k : Nat, (16 : Int) = 2 ^ k) ∨
        (4096 : Int) < 16 ∨ (65536 : Int) ≤ 16)) ∧
    MemoryAllocator.initDefault 4096 65536 =
      MemoryAllocator.init 4096 65536 16 :=
  memory_allocator_ctor_spec 4096 65536 16

/-- Witness for claim C5: terminating a concrete system with one queue
and one alive and one unstarted thread, where the alive thread's join
raises, still returns normally after signalling the queue and joining
only the alive thread. -/
theorem terminate_threads_spec_witness :
    ((⟨"Main", [⟨1, 7⟩], [⟨11, true⟩, ⟨12, false⟩], [], 0, [], [], [], [], 8⟩ :
        JobSystem).terminate_threads (some 5) (fun _ => true)).1 = Except.ok () ∧
    ((⟨"Main", [⟨1, 7⟩], [⟨11, true⟩, ⟨12, false⟩], [], 0, [], [], [], [], 8⟩ :
        JobSystem).terminate_threads (some 5) (fun _ => true)).2 =
      (⟨"Main", [⟨1, 7⟩], [⟨11, true⟩, ⟨12, false⟩], [], 0, [], [], [], [], 8⟩ :
          JobSystem).queues.map
        (fun qu => SchedEvent.signalQueue qu.internal JobQueueSignal.TERMINATE) ++
        ((⟨"Main", [⟨1, 7⟩], [⟨11, true⟩, ⟨12, false⟩], [], 0, [], [], [], [], 8⟩ :
            JobSystem).threads.filter (fun t => t.alive)).map
          (fun t => SchedEvent.joinThread t.ident (some 5)) :=
  terminate_threads_spec
    ⟨"Main", [⟨1, 7⟩], [⟨11, true⟩, ⟨12, false⟩], [], 0, [], [], [], [], 8⟩
    (some 5) (fun _ => true)

end Moxie
